import Mathlib

/-!
Shallow embedding of the marshalling core of the `rust-libsvm` wrapper
(src/lib.rs, src/datavec.rs, src/param.rs, src/model.rs, src/ffi.rs) and
proofs about it.  Machine floats (`f64`) are modelled as rationals `ℚ`:
every operation of the embedded code merely stores, moves or compares these
values for exact equality, so the embedding is faithful on that fragment.
Rust `i32` indices are modelled as `Int`; no embedded operation can overflow
an `i32` on the inputs considered (indices come from list positions or are
compared against `-1`/`1`), so no wrap-around modelling is needed.
Panics and out-of-bounds accesses are modelled with `Except`.
-/

/-- Fault raised by the `DataVec` sort: `invalidIndex` models the
`panic!("Index is less than 1 but not -1 ...")` in the comparator, and
`outOfBounds` models the `x[x.len() - 1]` access on an empty vector
(usize underflow / out-of-bounds index — a panic either way). -/
inductive DvFault where
  | invalidIndex : DvFault
  | outOfBounds : DvFault
deriving DecidableEq

/-- Embedding of `SvmNode(pub i32, pub f64)` from src/lib.rs. -/
structure SvmNode where
  index : Int
  value : ℚ
deriving DecidableEq

/-- Result of `i32::cmp` (Rust total order on integers). -/
def ordInt (a b : Int) : Ordering :=
  if a < b then .lt else if a = b then .eq else .gt

/-- The comparator closure passed to `sort_by` in `DataVec::sort`
(src/datavec.rs lines 73-84), with the `panic!` branch as an error.  The
Rust `match` on the index pair is rendered as the equivalent if-chain,
tested in the same order as the match arms. -/
def nodeCmp (a b : SvmNode) : Except DvFault Ordering :=
  if a.index = -1 ∧ b.index = -1 then .ok .eq
  else if a.index = -1 then .ok .gt
  else if b.index = -1 then .ok .lt
  else if a.index < 1 ∨ b.index < 1 then .error .invalidIndex
  else .ok (ordInt a.index b.index)

/-- One insertion step of a stable insertion sort over the fallible
comparator: the element `x` (occurring later in the original vector) is
placed after every element it does not compare strictly less than, exactly
as Rust's stable `sort_by` orders ties. -/
def insertNode (x : SvmNode) : List SvmNode → Except DvFault (List SvmNode)
  | [] => .ok [x]
  | y :: ys =>
    match nodeCmp x y with
    | .error e => .error e
    | .ok .lt => .ok (x :: y :: ys)
    | .ok .eq => match insertNode x ys with
      | .error e => .error e
      | .ok r => .ok (y :: r)
    | .ok .gt => match insertNode x ys with
      | .error e => .error e
      | .ok r => .ok (y :: r)

/-- Driver of the stable insertion sort: elements are taken left to right
from the input and inserted into the already-sorted accumulator. -/
def sortAuxE : List SvmNode → List SvmNode → Except DvFault (List SvmNode)
  | acc, [] => .ok acc
  | acc, x :: xs =>
    match insertNode x acc with
    | .error e => .error e
    | .ok acc2 => sortAuxE acc2 xs

/-- Embedding of `DataVec::sort` (src/datavec.rs lines 71-90): the stable
`sort_by` with the panicking comparator (modelled as a stable insertion
sort — on a vector of length below two the comparator is never invoked,
matching `sort_by`), then the unconditional read `x[x.len() - 1]`
(out of bounds when the vector is empty), then the conditional push of the
sentinel `SvmNode(-1, 0.0)`. -/
def sortNodes (x : List SvmNode) : Except DvFault (List SvmNode) :=
  match sortAuxE [] x with
  | .error e => .error e
  | .ok s =>
    match s.getLast? with
    | none => .error .outOfBounds
    | some last => if last.index = -1 then .ok s else .ok (s ++ [⟨-1, 0⟩])

/-- Embedding of the `DataVec` struct (src/datavec.rs lines 9-13). -/
structure DataVec where
  v : List SvmNode
  is_sorted : Bool
deriving DecidableEq

/-- Loop body of `DataVec::from_dense` (src/datavec.rs lines 22-39): the
running position `i` is the `enumerate` counter; entries exactly equal to
zero are skipped, others are pushed as `SvmNode((i + 1) as i32, x)`. -/
def fromDenseAux : Nat → List ℚ → List SvmNode
  | _, [] => []
  | i, x :: rest =>
    if x = 0 then fromDenseAux (i + 1) rest
    else ⟨((i + 1 : Nat) : Int), x⟩ :: fromDenseAux (i + 1) rest

/-- Embedding of `DataVec::from_dense`: the filtering loop followed by the
push of the sentinel pair, with `is_sorted` set. -/
def from_dense (x : List ℚ) : DataVec :=
  { v := fromDenseAux 0 x ++ [⟨-1, 0⟩], is_sorted := true }

/-- Embedding of `DataVec::from_sparse` (src/datavec.rs lines 53-59):
sorts the raw pairs in place with `DataVec::sort` and wraps the result
with `is_sorted` set; faults of the sort propagate (panic in Rust). -/
def from_sparse (x : List SvmNode) : Except DvFault DataVec :=
  match sortNodes x with
  | .error e => .error e
  | .ok s => .ok ⟨s, true⟩

/-- Embedding of `DataVec::resort` (src/datavec.rs lines 64-69): when the
dirty flag is clear nothing happens; otherwise the vector is re-sorted and
the flag is set again. -/
def DataVec.resort (d : DataVec) : Except DvFault DataVec :=
  if d.is_sorted then .ok d
  else
    match sortNodes d.v with
    | .error e => .error e
    | .ok s => .ok ⟨s, true⟩

/-- Embedding of a mutation performed through the `DerefMut` raw-access
view (src/datavec.rs lines 101-106): `deref_mut` clears `is_sorted` and
hands out the raw vector, on which the caller acts as `f`. -/
def modifyRaw (f : List SvmNode → List SvmNode) (d : DataVec) : DataVec :=
  ⟨f d.v, false⟩

/-- The ordering the comparator induces on nodes: sentinels (index `-1`)
come last, other entries ascend by index. -/
def nodeLe (a b : SvmNode) : Prop :=
  b.index = -1 ∨ (a.index ≠ -1 ∧ a.index ≤ b.index)

instance (a b : SvmNode) : Decidable (nodeLe a b) := by
  unfold nodeLe; infer_instance

/-- Valid raw input nodes: sentinel or a 1-based index. -/
def validNode (n : SvmNode) : Prop := n.index = -1 ∨ 1 ≤ n.index

instance (n : SvmNode) : Decidable (validNode n) := by
  unfold validNode; infer_instance

theorem nodeLe_trans {a b c : SvmNode} (h1 : nodeLe a b) (h2 : nodeLe b c) :
    nodeLe a c := by
  unfold nodeLe at *
  rcases h1 with h1 | ⟨h1a, h1b⟩ <;> rcases h2 with h2 | ⟨h2a, h2b⟩
  · exact Or.inl h2
  · exact absurd h1 h2a
  · exact Or.inl h2
  · exact Or.inr ⟨h1a, le_trans h1b h2b⟩

theorem nodeCmp_ok_lt {a b : SvmNode} (h : nodeCmp a b = .ok .lt) :
    nodeLe a b := by
  unfold nodeCmp ordInt at h
  unfold nodeLe
  split_ifs at h with h1 h2 h3 h4 h5 h6 <;> (try simp at h) <;> omega

theorem nodeCmp_ok_not_lt {a b : SvmNode} {o : Ordering}
    (h : nodeCmp a b = .ok o) (ho : o ≠ .lt) : nodeLe b a := by
  unfold nodeCmp ordInt at h
  unfold nodeLe
  split_ifs at h with h1 h2 h3 h4 h5 h6 <;> (try simp at h) <;>
    (try exact absurd h.symm ho) <;> omega

theorem insertNode_ok_perm {x : SvmNode} :
    ∀ {l r : List SvmNode}, insertNode x l = .ok r → List.Perm r (x :: l)
  | [], r, h => by
    unfold insertNode at h
    injection h with h
    exact h ▸ List.Perm.refl _
  | y :: ys, r, h => by
    unfold insertNode at h
    cases hc : nodeCmp x y with
    | error e => rw [hc] at h; cases h
    | ok o =>
      rw [hc] at h
      cases o with
      | lt =>
        injection h with h
        exact h ▸ List.Perm.refl _
      | eq =>
        cases hr : insertNode x ys with
        | error e => rw [hr] at h; cases h
        | ok r0 =>
          rw [hr] at h
          injection h with h
          subst h
          exact List.Perm.trans ((insertNode_ok_perm hr).cons y) (List.Perm.swap x y ys)
      | gt =>
        cases hr : insertNode x ys with
        | error e => rw [hr] at h; cases h
        | ok r0 =>
          rw [hr] at h
          injection h with h
          subst h
          exact List.Perm.trans ((insertNode_ok_perm hr).cons y) (List.Perm.swap x y ys)

theorem insertNode_ok_sorted {x : SvmNode} :
    ∀ {l r : List SvmNode}, insertNode x l = .ok r →
      l.Pairwise nodeLe → r.Pairwise nodeLe
  | [], r, h, _ => by
    unfold insertNode at h
    injection h with h
    subst h
    exact List.pairwise_singleton _ _
  | y :: ys, r, h, hs => by
    unfold insertNode at h
    rw [List.pairwise_cons] at hs
    cases hc : nodeCmp x y with
    | error e => rw [hc] at h; cases h
    | ok o =>
      rw [hc] at h
      have hxy_of_lt : o = .lt → nodeLe x y := fun ho => nodeCmp_ok_lt (ho ▸ hc)
      have hyx_of_ne : o ≠ .lt → nodeLe y x := fun ho => nodeCmp_ok_not_lt hc ho
      cases o with
      | lt =>
        injection h with h
        subst h
        refine List.pairwise_cons.mpr ⟨?_, List.pairwise_cons.mpr hs⟩
        intro z hz
        rcases List.mem_cons.mp hz with hz | hz
        · exact hz ▸ hxy_of_lt rfl
        · exact nodeLe_trans (hxy_of_lt rfl) (hs.1 z hz)
      | eq =>
        cases hr : insertNode x ys with
        | error e => rw [hr] at h; cases h
        | ok r0 =>
          rw [hr] at h
          injection h with h
          subst h
          refine List.pairwise_cons.mpr ⟨?_, insertNode_ok_sorted hr hs.2⟩
          intro z hz
          rcases List.mem_cons.mp ((insertNode_ok_perm hr).mem_iff.mp hz) with hz | hz
          · exact hz ▸ hyx_of_ne (by simp)
          · exact hs.1 z hz
      | gt =>
        cases hr : insertNode x ys with
        | error e => rw [hr] at h; cases h
        | ok r0 =>
          rw [hr] at h
          injection h with h
          subst h
          refine List.pairwise_cons.mpr ⟨?_, insertNode_ok_sorted hr hs.2⟩
          intro z hz
          rcases List.mem_cons.mp ((insertNode_ok_perm hr).mem_iff.mp hz) with hz | hz
          · exact hz ▸ hyx_of_ne (by simp)
          · exact hs.1 z hz

theorem sortAuxE_ok_perm :
    ∀ {l acc r : List SvmNode}, sortAuxE acc l = .ok r → List.Perm r (acc ++ l)
  | [], acc, r, h => by
    unfold sortAuxE at h
    injection h with h
    simp [h]
  | x :: xs, acc, r, h => by
    unfold sortAuxE at h
    cases hi : insertNode x acc with
    | error e => rw [hi] at h; cases h
    | ok acc2 =>
      rw [hi] at h
      have h1 := sortAuxE_ok_perm h
      have h2 := insertNode_ok_perm hi
      exact h1.trans ((h2.append_right xs).trans List.perm_middle.symm)

theorem sortAuxE_ok_sorted :
    ∀ {l acc r : List SvmNode}, sortAuxE acc l = .ok r →
      acc.Pairwise nodeLe → r.Pairwise nodeLe
  | [], acc, r, h, hs => by
    unfold sortAuxE at h
    injection h with h
    exact h ▸ hs
  | x :: xs, acc, r, h, hs => by
    unfold sortAuxE at h
    cases hi : insertNode x acc with
    | error e => rw [hi] at h; cases h
    | ok acc2 =>
      rw [hi] at h
      exact sortAuxE_ok_sorted h (insertNode_ok_sorted hi hs)

theorem insertNode_valid_ok {x : SvmNode} (hx : validNode x) :
    ∀ {l : List SvmNode}, (∀ y ∈ l, validNode y) →
      ∃ r, insertNode x l = .ok r
  | [], _ => ⟨[x], rfl⟩
  | y :: ys, hl => by
    have hy : validNode y := hl y (List.mem_cons_self y ys)
    have hc : ∃ o, nodeCmp x y = .ok o := by
      unfold nodeCmp
      unfold validNode at hx hy
      split_ifs with h1 h2 h3 h4 <;> (try omega) <;> exact ⟨_, rfl⟩
    obtain ⟨o, hc⟩ := hc
    obtain ⟨r0, hr0⟩ := insertNode_valid_ok hx
      (fun z hz => hl z (List.mem_cons_of_mem y hz)) (l := ys)
    cases o with
    | lt => exact ⟨x :: y :: ys, by unfold insertNode; rw [hc]⟩
    | eq => exact ⟨y :: r0, by unfold insertNode; rw [hc, hr0]⟩
    | gt => exact ⟨y :: r0, by unfold insertNode; rw [hc, hr0]⟩

theorem sortAuxE_valid_ok :
    ∀ {l acc : List SvmNode}, (∀ y ∈ l, validNode y) →
      (∀ y ∈ acc, validNode y) → ∃ r, sortAuxE acc l = .ok r
  | [], acc, _, _ => ⟨acc, rfl⟩
  | x :: xs, acc, hl, hacc => by
    have hx : validNode x := hl x (List.mem_cons_self x xs)
    obtain ⟨acc2, h2⟩ := insertNode_valid_ok hx hacc
    have hacc2 : ∀ y ∈ acc2, validNode y := by
      intro y hy
      rcases List.mem_cons.mp ((insertNode_ok_perm h2).mem_iff.mp hy) with hy | hy
      · exact hy ▸ hx
      · exact hacc y hy
    obtain ⟨r, hr⟩ := sortAuxE_valid_ok
      (fun z hz => hl z (List.mem_cons_of_mem x hz)) hacc2
    exact ⟨r, by unfold sortAuxE; rw [h2]; exact hr⟩

theorem sorted_sentinel_last {l : List SvmNode} {z n : SvmNode}
    (hs : l.Pairwise nodeLe) (hz : l.getLast? = some z) (hn : n ∈ l)
    (hidx : n.index = -1) : z.index = -1 := by
  obtain ⟨ys, rfl⟩ := List.getLast?_eq_some_iff.mp hz
  rcases List.mem_append.mp hn with hn | hn
  · have hle := (List.pairwise_append.mp hs).2.2 n hn z (List.mem_singleton.mpr rfl)
    unfold nodeLe at hle
    rcases hle with hle | ⟨ha, _⟩
    · exact hle
    · exact absurd hidx ha
  · rcases List.mem_singleton.mp hn with rfl
    exact hidx

theorem sortNodes_ok_sorted {x s : List SvmNode} (h : sortNodes x = .ok s) :
    s.Pairwise nodeLe := by
  unfold sortNodes at h
  cases h0 : sortAuxE [] x with
  | error e => rw [h0] at h; cases h
  | ok s0 =>
    rw [h0] at h
    dsimp only at h
    have hs0 : s0.Pairwise nodeLe := sortAuxE_ok_sorted h0 List.Pairwise.nil
    cases hl : s0.getLast? with
    | none => rw [hl] at h; cases h
    | some last =>
      rw [hl] at h
      dsimp only at h
      split_ifs at h with hidx
      · injection h with h
        exact h ▸ hs0
      · injection h with h
        subst h
        refine List.pairwise_append.mpr ⟨hs0, List.pairwise_singleton _ _, ?_⟩
        intro a _ b hb
        rcases List.mem_singleton.mp hb with rfl
        exact Or.inl rfl

theorem sortNodes_ok_last {x s : List SvmNode} (h : sortNodes x = .ok s) :
    ∃ z, s.getLast? = some z ∧ z.index = -1 := by
  unfold sortNodes at h
  cases h0 : sortAuxE [] x with
  | error e => rw [h0] at h; cases h
  | ok s0 =>
    rw [h0] at h
    dsimp only at h
    cases hl : s0.getLast? with
    | none => rw [hl] at h; cases h
    | some last =>
      rw [hl] at h
      dsimp only at h
      split_ifs at h with hidx
      · injection h with h
        subst h
        exact ⟨last, hl, hidx⟩
      · injection h with h
        subst h
        exact ⟨⟨-1, 0⟩, List.getLast?_concat s0, rfl⟩

theorem sortNodes_ok_count {x s : List SvmNode} (h : sortNodes x = .ok s) :
    s.countP (fun n => n.index == -1) =
      max 1 (x.countP (fun n => n.index == -1)) := by
  unfold sortNodes at h
  cases h0 : sortAuxE [] x with
  | error e => rw [h0] at h; cases h
  | ok s0 =>
    rw [h0] at h
    dsimp only at h
    have hperm : List.Perm s0 x := by simpa using sortAuxE_ok_perm h0
    have hcount := hperm.countP_eq (fun n => n.index == -1)
    have hs0 : s0.Pairwise nodeLe := sortAuxE_ok_sorted h0 List.Pairwise.nil
    cases hl : s0.getLast? with
    | none => rw [hl] at h; cases h
    | some last =>
      rw [hl] at h
      dsimp only at h
      split_ifs at h with hidx
      · injection h with h
        subst h
        have hmem : last ∈ s0 := List.mem_of_mem_getLast? (Option.mem_def.mpr hl)
        have hpos : 0 < s0.countP (fun n => n.index == -1) := by
          rw [List.countP_pos_iff]
          exact ⟨last, hmem, by simp [hidx]⟩
        omega
      · injection h with h
        subst h
        have hzero : s0.countP (fun n => n.index == -1) = 0 := by
          rw [List.countP_eq_zero]
          intro a ha
          simp only [beq_iff_eq]
          intro haidx
          exact hidx (sorted_sentinel_last hs0 hl ha haidx)
        rw [List.countP_append]
        have h1 : List.countP (fun n => n.index == -1) [(⟨-1, 0⟩ : SvmNode)] = 1 := rfl
        omega

/-- Claim C3 (amended): for every input of valid-index pairs on which
`from_sparse` returns a vector, that vector is sorted ascending by index
with sentinel entries last and ends with a sentinel entry; the number of
sentinel entries equals the number of sentinel pairs of the input when the
input has any (the sort keeps all of them), and is one otherwise.  The
`is_sorted` flag is set.  (The original claim's "exactly one sentinel
regardless of how many sentinel pairs the input contains" fails: duplicate
input sentinels are all kept.) -/
theorem claim_C3_amended (x : List SvmNode) (_hv : ∀ n ∈ x, validNode n)
    (d : DataVec) (h : from_sparse x = .ok d) :
    d.v.Pairwise nodeLe ∧
    (∃ z, d.v.getLast? = some z ∧ z.index = -1) ∧
    d.v.countP (fun n => n.index == -1) =
      max 1 (x.countP (fun n => n.index == -1)) ∧
    d.is_sorted = true := by
  unfold from_sparse at h
  cases hsn : sortNodes x with
  | error e => rw [hsn] at h; cases h
  | ok s =>
    rw [hsn] at h
    injection h with h
    subst h
    exact ⟨sortNodes_ok_sorted hsn, sortNodes_ok_last hsn,
      sortNodes_ok_count hsn, rfl⟩

/-- Claim C3 counterexample: the input `[(1,1),(-1,0),(-1,0)]` has only
valid non-sentinel indices, yet the produced vector keeps both input
sentinel pairs, so it does not end with exactly one sentinel entry. -/
theorem claim_C3_counterexample :
    from_sparse [⟨1, 1⟩, ⟨-1, 0⟩, ⟨-1, 0⟩] =
      .ok ⟨[⟨1, 1⟩, ⟨-1, 0⟩, ⟨-1, 0⟩], true⟩ ∧
    List.countP (fun n => n.index == -1)
      [(⟨1, 1⟩ : SvmNode), ⟨-1, 0⟩, ⟨-1, 0⟩] = 2 :=
  ⟨rfl, rfl⟩

/-- Claim C3 witness: the amended theorem applied to the spec's own
example input `[(4,9),(-1,0),(1,3)]`. -/
theorem claim_C3_witness :
    (DataVec.mk [⟨1, 3⟩, ⟨4, 9⟩, ⟨-1, 0⟩] true).v.Pairwise nodeLe ∧
    (∃ z, (DataVec.mk [⟨1, 3⟩, ⟨4, 9⟩, ⟨-1, 0⟩] true).v.getLast? = some z ∧
      z.index = -1) ∧
    (DataVec.mk [⟨1, 3⟩, ⟨4, 9⟩, ⟨-1, 0⟩] true).v.countP
        (fun n => n.index == -1) =
      max 1 (List.countP (fun n => n.index == -1)
        [(⟨4, 9⟩ : SvmNode), ⟨-1, 0⟩, ⟨1, 3⟩]) ∧
    (DataVec.mk [⟨1, 3⟩, ⟨4, 9⟩, ⟨-1, 0⟩] true).is_sorted = true :=
  claim_C3_amended [⟨4, 9⟩, ⟨-1, 0⟩, ⟨1, 3⟩] (by decide)
    (DataVec.mk [⟨1, 3⟩, ⟨4, 9⟩, ⟨-1, 0⟩] true) rfl

/-- Claim C4 counterexample: the singleton input `[(0,5)]` contains the
non-sentinel index `0 < 1`, yet `from_sparse` does not fault: `sort_by`
never invokes the comparator on a one-element vector, so the invalid
index is silently accepted and returned unrepaired. -/
theorem claim_C4_counterexample :
    from_sparse [⟨0, 5⟩] = .ok ⟨[⟨0, 5⟩, ⟨-1, 0⟩], true⟩ := rfl

/-- Claim C4 (amended): `from_sparse` faults with the malformed-input
panic only when the sort compares an invalid index against another
non-sentinel entry; in particular any two-element input of a valid
non-sentinel node followed by a node with non-sentinel index below one
panics, while an invalid index that is never compared against a
non-sentinel (such as a singleton input) is silently accepted. -/
theorem claim_C4_amended (a b : SvmNode) (ha : 1 ≤ a.index)
    (hb1 : b.index < 1) (hb2 : b.index ≠ -1) :
    from_sparse [a, b] = .error .invalidIndex := by
  have hc : nodeCmp b a = .error .invalidIndex := by
    unfold nodeCmp
    split_ifs with h1 h2 h3 <;> (try omega)
    rfl
  simp only [from_sparse, sortNodes, sortAuxE, insertNode, hc]

/-- Claim C4 witness: the amended fault theorem at the concrete input
`[(1,0),(0,0)]`. -/
theorem claim_C4_witness :
    from_sparse [⟨1, 0⟩, ⟨0, 0⟩] = .error .invalidIndex :=
  claim_C4_amended ⟨1, 0⟩ ⟨0, 0⟩ (by decide) (by decide) (by decide)

/-- Claim C6: `resort` is idempotent (a second application after any
first one changes nothing, including when the first faults); any mutation
through the `DerefMut` raw-access view leaves the vector marked dirty;
and `resort` on a dirty vector re-applies the sort/sentinel rule,
restoring the sorted invariant and the flag when it returns. -/
theorem claim_C6 :
    (∀ d : DataVec, d.resort >>= DataVec.resort = d.resort) ∧
    (∀ (f : List SvmNode → List SvmNode) (d : DataVec),
      (modifyRaw f d).is_sorted = false) ∧
    (∀ (v : List SvmNode) (d2 : DataVec),
      DataVec.resort ⟨v, false⟩ = .ok d2 →
      d2.is_sorted = true ∧ d2.v.Pairwise nodeLe ∧ sortNodes v = .ok d2.v) := by
  refine ⟨?_, fun f d => rfl, ?_⟩
  · intro d
    obtain ⟨v, s⟩ := d
    cases s
    · show (match sortNodes v with
        | .error e => .error e
        | .ok s => (.ok ⟨s, true⟩ : Except DvFault DataVec)) >>= DataVec.resort =
          (match sortNodes v with
        | .error e => .error e
        | .ok s => .ok ⟨s, true⟩)
      cases hs : sortNodes v
      · rfl
      · rfl
    · rfl
  · intro v d2 h
    have hr : DataVec.resort ⟨v, false⟩ = (match sortNodes v with
      | .error e => .error e
      | .ok s => .ok ⟨s, true⟩) := rfl
    rw [hr] at h
    cases hs : sortNodes v with
    | error e => rw [hs] at h; cases h
    | ok s =>
      rw [hs] at h
      injection h with h
      subst h
      exact ⟨rfl, sortNodes_ok_sorted hs, rfl⟩

/-- Claim C6 witness: the dirty-resort clause of the theorem applied to
the concrete dirty vector `([(1,1)], dirty)`. -/
theorem claim_C6_witness :
    (DataVec.mk [⟨1, 1⟩, ⟨-1, 0⟩] true).is_sorted = true ∧
    (DataVec.mk [⟨1, 1⟩, ⟨-1, 0⟩] true).v.Pairwise nodeLe ∧
    sortNodes [⟨1, 1⟩] = .ok (DataVec.mk [⟨1, 1⟩, ⟨-1, 0⟩] true).v :=
  claim_C6.2.2 [⟨1, 1⟩] (DataVec.mk [⟨1, 1⟩, ⟨-1, 0⟩] true) rfl

/-- Claim C10: the internal sort reads `x[x.len() - 1]` unconditionally,
so `from_sparse` on the empty input faults with the out-of-bounds error
(usize underflow of `0 - 1` / out-of-bounds index), while every non-empty
input whose indices all pass validation returns normally. -/
theorem claim_C10 :
    from_sparse ([] : List SvmNode) = .error .outOfBounds ∧
    ∀ x : List SvmNode, x ≠ [] → (∀ n ∈ x, validNode n) →
      ∃ d, from_sparse x = .ok d := by
  refine ⟨rfl, ?_⟩
  intro x hne hv
  obtain ⟨s0, h0⟩ := sortAuxE_valid_ok hv (fun y hy => absurd hy (List.not_mem_nil y))
  have hperm : List.Perm s0 x := by simpa using sortAuxE_ok_perm h0
  have hs0ne : s0 ≠ [] := by
    intro hnil
    apply hne
    have hlen := hperm.length_eq
    rw [hnil] at hlen
    simp only [List.length_nil] at hlen
    exact List.length_eq_zero.mp hlen.symm
  have hl := List.getLast?_eq_getLast s0 hs0ne
  have hsn : sortNodes x = (match s0.getLast? with
    | none => .error .outOfBounds
    | some last =>
        if last.index = -1 then .ok s0 else .ok (s0 ++ [⟨-1, 0⟩])) := by
    unfold sortNodes
    rw [h0]
  rw [hl] at hsn
  dsimp only at hsn
  by_cases hidx : (s0.getLast hs0ne).index = -1
  · rw [if_pos hidx] at hsn
    exact ⟨⟨s0, true⟩, by unfold from_sparse; rw [hsn]⟩
  · rw [if_neg hidx] at hsn
    exact ⟨⟨s0 ++ [⟨-1, 0⟩], true⟩, by unfold from_sparse; rw [hsn]⟩

/-- Claim C10 witness: the success half of the theorem at the concrete
one-element valid input `[(1,2)]`. -/
theorem claim_C10_witness :
    ∃ d, from_sparse [⟨1, 2⟩] = .ok d :=
  claim_C10.2 [⟨1, 2⟩] (by decide) (by decide)

theorem fromDenseAux_mem_bound :
    ∀ (k : Nat) (l : List ℚ) (n : SvmNode), n ∈ fromDenseAux k l →
      (k : Int) < n.index
  | _, [], n, h => absurd h (List.not_mem_nil n)
  | k, x :: rest, n, h => by
    unfold fromDenseAux at h
    split_ifs at h with hx
    · have := fromDenseAux_mem_bound (k + 1) rest n h
      push_cast at this ⊢
      omega
    · rcases List.mem_cons.mp h with rfl | h
      · show (k : Int) < ((k + 1 : Nat) : Int)
        push_cast
        omega
      · have := fromDenseAux_mem_bound (k + 1) rest n h
        push_cast at this ⊢
        omega

theorem fromDenseAux_pairwise :
    ∀ (k : Nat) (l : List ℚ),
      (fromDenseAux k l).Pairwise (fun a b => a.index < b.index)
  | _, [] => List.Pairwise.nil
  | k, x :: rest => by
    unfold fromDenseAux
    split_ifs with hx
    · exact fromDenseAux_pairwise (k + 1) rest
    · refine List.pairwise_cons.mpr ⟨?_, fromDenseAux_pairwise (k + 1) rest⟩
      intro b hb
      have := fromDenseAux_mem_bound (k + 1) rest b hb
      show (⟨((k + 1 : Nat) : Int), x⟩ : SvmNode).index < b.index
      push_cast at this ⊢
      omega

theorem fromDenseAux_mem_iff :
    ∀ (k : Nat) (l : List ℚ) (i : Int) (v : ℚ),
      (SvmNode.mk i v ∈ fromDenseAux k l) ↔
        ∃ j : Nat, l[j]? = some v ∧ v ≠ 0 ∧ i = ((k + j + 1 : Nat) : Int)
  | k, [], i, v => by simp [fromDenseAux]
  | k, x :: rest, i, v => by
    unfold fromDenseAux
    split_ifs with hx
    · rw [fromDenseAux_mem_iff (k + 1) rest i v]
      constructor
      · rintro ⟨j, hj, hv, hi⟩
        refine ⟨j + 1, by simpa using hj, hv, ?_⟩
        push_cast at hi ⊢
        omega
      · rintro ⟨j, hj, hv, hi⟩
        cases j with
        | zero =>
          rw [List.getElem?_cons_zero] at hj
          injection hj with hj
          exact absurd (hj ▸ hx) hv
        | succ j =>
          refine ⟨j, by simpa using hj, hv, ?_⟩
          push_cast at hi ⊢
          omega
    · rw [List.mem_cons, fromDenseAux_mem_iff (k + 1) rest i v]
      simp only [SvmNode.mk.injEq]
      constructor
      · rintro (⟨hi, hv⟩ | ⟨j, hj, hv, hi⟩)
        · refine ⟨0, by rw [List.getElem?_cons_zero, hv], fun hc => hx (hv ▸ hc), ?_⟩
          push_cast at hi ⊢
          omega
        · refine ⟨j + 1, by simpa using hj, hv, ?_⟩
          push_cast at hi ⊢
          omega
      · rintro ⟨j, hj, hv, hi⟩
        cases j with
        | zero =>
          rw [List.getElem?_cons_zero] at hj
          injection hj with hj
          refine Or.inl ⟨?_, hj.symm⟩
          push_cast at hi ⊢
          omega
        | succ j =>
          refine Or.inr ⟨j, by simpa using hj, hv, ?_⟩
          push_cast at hi ⊢
          omega

/-- Claim C5: for every dense input, `from_dense` yields a front segment
followed by exactly one trailing sentinel pair; the front contains a pair
`(j+1, values[j])` exactly for the positions `j` whose value is not
exactly zero (and nothing else — its indices are strictly ascending, so
entries are not duplicated, and never the sentinel index); the empty
dense input yields the sentinel-only vector. -/
theorem claim_C5 :
    (∀ x : List ℚ, ∃ front,
      (from_dense x).v = front ++ [⟨-1, 0⟩] ∧
      (∀ (i : Int) (v : ℚ), SvmNode.mk i v ∈ front ↔
        ∃ j : Nat, x[j]? = some v ∧ v ≠ 0 ∧ i = (j : Int) + 1) ∧
      front.Pairwise (fun a b => a.index < b.index) ∧
      (∀ n ∈ front, n.index ≠ -1)) ∧
    (from_dense ([] : List ℚ)).v = [⟨-1, 0⟩] := by
  refine ⟨?_, rfl⟩
  intro x
  refine ⟨fromDenseAux 0 x, rfl, ?_, fromDenseAux_pairwise 0 x, ?_⟩
  · intro i v
    rw [fromDenseAux_mem_iff 0 x i v]
    constructor
    · rintro ⟨j, hj, hv, hi⟩
      refine ⟨j, hj, hv, ?_⟩
      push_cast at hi ⊢
      omega
    · rintro ⟨j, hj, hv, hi⟩
      refine ⟨j, hj, hv, ?_⟩
      push_cast at hi ⊢
      omega
  · intro n hn
    have := fromDenseAux_mem_bound 0 x n hn
    push_cast at this
    omega

/-- Embedding of the `SvmType` C enum (src/ffi.rs lines 16-22). -/
inductive SvmType where
  | CSvc : SvmType
  | NuSvc : SvmType
  | OneClass : SvmType
  | EpsilonSvr : SvmType
  | NuSvr : SvmType
deriving DecidableEq

/-- Embedding of the `KernelType` C enum (src/ffi.rs lines 26-32). -/
inductive KernelType where
  | Linear : KernelType
  | Poly : KernelType
  | Rbf : KernelType
  | Sigmoid : KernelType
  | Precomputed : KernelType
deriving DecidableEq

/-- Embedding of `CSvmParameter` (src/ffi.rs lines 35-52).  The raw
`*mut i32` / `*mut f64` weight pointers are modelled as the pointed-to
arrays, with `none` for the null pointer. -/
structure CSvmParameter where
  svm_type : SvmType
  kernel_type : KernelType
  degree : Int
  gamma : ℚ
  coef0 : ℚ
  cache_size : ℚ
  eps : ℚ
  c : ℚ
  nr_weight : Int
  weight_label : Option (List Int)
  weight : Option (List ℚ)
  nu : ℚ
  p : ℚ
  shrinking : Bool
  probability : Bool
deriving DecidableEq

/-- Embedding of the `Default` impl for `CSvmParameter`
(src/ffi.rs lines 54-76): zeroes, null pointers, `CSvc`/`Linear`. -/
def CSvmParameter.default : CSvmParameter :=
  { svm_type := .CSvc, kernel_type := .Linear, degree := 0, gamma := 0,
    coef0 := 0, cache_size := 0, eps := 0, c := 0, nr_weight := 0,
    weight_label := none, weight := none, nu := 0, p := 0,
    shrinking := false, probability := false }

/-- Embedding of `KernelParam` (src/param.rs lines 7-13). -/
inductive KernelParam where
  | Linear : KernelParam
  | Poly : Int → ℚ → ℚ → KernelParam
  | Rbf : ℚ → KernelParam
  | Sigmoid : ℚ → ℚ → KernelParam
  | Precomputed : KernelParam
deriving DecidableEq

/-- Embedding of `KernelParam::to_kernel_type` (src/param.rs lines 16-25). -/
def KernelParam.to_kernel_type : KernelParam → KernelType
  | .Linear => .Linear
  | .Poly _ _ _ => .Poly
  | .Rbf _ => .Rbf
  | .Sigmoid _ _ => .Sigmoid
  | .Precomputed => .Precomputed

/-- Embedding of the `Weight` struct (src/param.rs line 31). -/
structure Weight where
  label : Int
  weight : ℚ
deriving DecidableEq

/-- Embedding of `SvmTypeParam` (src/param.rs lines 39-45); `CSvc` carries
the cost and the weight-override list. -/
inductive SvmTypeParam where
  | CSvc : ℚ → List Weight → SvmTypeParam
  | NuSvc : ℚ → SvmTypeParam
  | OneClass : ℚ → SvmTypeParam
  | EpsilonSvr : ℚ → SvmTypeParam
  | NuSvr : ℚ → SvmTypeParam
deriving DecidableEq

/-- Embedding of `SvmTypeParam::to_svm_type` (src/param.rs lines 48-57). -/
def SvmTypeParam.to_svm_type : SvmTypeParam → SvmType
  | .CSvc _ _ => .CSvc
  | .NuSvc _ => .NuSvc
  | .OneClass _ => .OneClass
  | .EpsilonSvr _ => .EpsilonSvr
  | .NuSvr _ => .NuSvr

/-- Embedding of `SvmParameter` (src/param.rs lines 72-96).  The two
`RefCell<Option<Vec<_>>>` cache cells are plain optional lists here; the
interior mutation that `crep` performs through them is made explicit by
returning an updated record. -/
structure SvmParameter where
  kernel_param : KernelParam
  svm_type_param : SvmTypeParam
  shrinking : Bool
  probability : Bool
  cache_size : ℚ
  epsilon : ℚ
  weight_labels : Option (List Int)
  weights : Option (List ℚ)
  in_model : Bool
deriving DecidableEq

/-- Embedding of `SvmParameter::new` (src/param.rs lines 100-113). -/
def SvmParameter.new (kernel_param : KernelParam)
    (svm_type_param : SvmTypeParam) (shrinking probability : Bool)
    (cache_size epsilon : ℚ) : SvmParameter :=
  { kernel_param := kernel_param, svm_type_param := svm_type_param,
    shrinking := shrinking, probability := probability,
    cache_size := cache_size, epsilon := epsilon,
    weight_labels := none, weights := none, in_model := false }

/-- Embedding of `SvmParameter::invalidate_cache` (src/param.rs lines
202-205).  The source body assigns `self.weight_labels` twice and never
clears `self.weights`, so this models exactly that: only `weight_labels`
becomes `None`. -/
def SvmParameter.invalidate_cache (p : SvmParameter) : SvmParameter :=
  { { p with weight_labels := none } with weight_labels := none }

/-- Embedding of `SvmParameter::cache_weights` (src/param.rs lines
207-222): an early return when `weight_labels` is already cached,
otherwise both flattened arrays are rebuilt from the weight list. -/
def SvmParameter.cache_weights (p : SvmParameter) (ws : List Weight) :
    SvmParameter :=
  if p.weight_labels.isSome then p
  else { p with weight_labels := some (ws.map (fun w => w.label)),
                weights := some (ws.map (fun w => w.weight)) }

/-- Embedding of `SvmParameter::crep` (src/param.rs lines 150-200).  The
returned pair is (the C struct, the parameter with its interior cache
cells as `crep` leaves them).  The two `unwrap()` calls on the cache
cells are the `Option` matches: a `none` there models the Rust panic
(unreachable through the library's API).  Field updates follow the
statement order of the source. -/
def SvmParameter.crep (p0 : SvmParameter) :
    Option (CSvmParameter × SvmParameter) :=
  let self := if p0.in_model then p0 else p0.invalidate_cache
  let c1 := { CSvmParameter.default with
    kernel_type := self.kernel_param.to_kernel_type }
  let c2 := match self.kernel_param with
    | .Poly degree gamma coef0 =>
        { c1 with degree := degree, gamma := gamma, coef0 := coef0 }
    | .Rbf gamma => { c1 with gamma := gamma }
    | .Sigmoid gamma coef0 => { c1 with gamma := gamma, coef0 := coef0 }
    | .Linear => c1
    | .Precomputed => c1
  let c3 := { c2 with svm_type := self.svm_type_param.to_svm_type }
  match self.svm_type_param with
  | .CSvc c ws =>
      let self2 := self.cache_weights ws
      match self2.weights, self2.weight_labels with
      | some w, some wl =>
          some ({ c3 with c := c, nr_weight := (ws.length : Int),
                          weight := some w, weight_label := some wl,
                          shrinking := self2.shrinking,
                          probability := self2.probability,
                          cache_size := self2.cache_size,
                          eps := self2.epsilon }, self2)
      | _, _ => none
  | .NuSvc nu =>
      some ({ c3 with nu := nu, shrinking := self.shrinking,
                      probability := self.probability,
                      cache_size := self.cache_size,
                      eps := self.epsilon }, self)
  | .OneClass nu =>
      some ({ c3 with nu := nu, shrinking := self.shrinking,
                      probability := self.probability,
                      cache_size := self.cache_size,
                      eps := self.epsilon }, self)
  | .EpsilonSvr pp =>
      some ({ c3 with p := pp, shrinking := self.shrinking,
                      probability := self.probability,
                      cache_size := self.cache_size,
                      eps := self.epsilon }, self)
  | .NuSvr nu =>
      some ({ c3 with nu := nu, shrinking := self.shrinking,
                      probability := self.probability,
                      cache_size := self.cache_size,
                      eps := self.epsilon }, self)

/-- Embedding of `make_weights` (src/param.rs lines 242-256): an empty
list for a zero count or a null pointer, otherwise the first `nr_weight`
elements of the two arrays zipped into `Weight` records (the source's
`slice::from_raw_parts` reads exactly `nr_weight` elements). -/
def make_weights (nr_weight : Int) (weight_label : Option (List Int))
    (weight : Option (List ℚ)) : List Weight :=
  match weight_label, weight with
  | some ls, some ws =>
      if nr_weight = 0 then []
      else ((ls.take nr_weight.toNat).zip (ws.take nr_weight.toNat)).map
        (fun lw => ⟨lw.1, lw.2⟩)
  | _, _ => []

/-- Embedding of `SvmParameter::from_crep` (src/param.rs lines 115-148). -/
def SvmParameter.from_crep (crep : CSvmParameter) : SvmParameter :=
  { in_model := false, weight_labels := none, weights := none,
    shrinking := crep.shrinking, probability := crep.probability,
    cache_size := crep.cache_size, epsilon := crep.eps,
    kernel_param := match crep.kernel_type with
      | .Linear => .Linear
      | .Poly => .Poly crep.degree crep.gamma crep.coef0
      | .Rbf => .Rbf crep.gamma
      | .Sigmoid => .Sigmoid crep.gamma crep.coef0
      | .Precomputed => .Precomputed,
    svm_type_param := match crep.svm_type with
      | .CSvc => .CSvc crep.c
          (make_weights crep.nr_weight crep.weight_label crep.weight)
      | .NuSvc => .NuSvc crep.nu
      | .OneClass => .OneClass crep.nu
      | .EpsilonSvr => .EpsilonSvr crep.p
      | .NuSvr => .NuSvr crep.nu }

/-- Embedding of `param::protected::set_in_model` (src/param.rs lines
229-231). -/
def set_in_model (p : SvmParameter) (val : Bool) : SvmParameter :=
  { p with in_model := val }

/-- Embedding of `CSvmModel` (src/ffi.rs lines 79-94).  Only the fields a
claim reads are carried (`param`, `nr_class`, `l`, `free_sv`); the raw
pointer fields (`sv`, `sv_coef`, `rho`, `prob_a`, `prob_b`, `sv_indices`,
`label`, `n_sv`) are foreign-owned arrays no embedded operation inspects,
so they are omitted from the record. -/
structure CSvmModel where
  param : CSvmParameter
  nr_class : Int
  l : Int
  free_sv : Bool
deriving DecidableEq

/-- Modelled from the spec: `prob.rs` is not among the sources, so the
Training Set (`SvmProblem`) is kept as an abstract placeholder — per the
spec it is parallel label/vector data that no claim below inspects. -/
structure SvmProblem where
  unused : Unit
deriving DecidableEq

/-- Embedding of `SvmModel` (src/model.rs lines 21-26).  The `crep`
field is the `&'a mut CSvmModel` borrow; it is an `Option` only because
`load` can smuggle a null pointer into it (see `SvmModel.load`), in which
case it is `none`.  Handles built by `model_from_c_rep` always carry
`some`. -/
structure SvmModel where
  crep : Option CSvmModel
  param : Option SvmParameter
  prob : Option SvmProblem
deriving DecidableEq

/-- Embedding of `model_from_c_rep` (src/model.rs lines 300-308): the
parameter set is frozen with `set_in_model(param, true)` and moved into
the new handle together with the problem. -/
def model_from_c_rep (crep : CSvmModel) (prob : SvmProblem)
    (param : SvmParameter) : SvmModel :=
  { crep := some crep, param := some (set_in_model param true),
    prob := some prob }

/-- Embedding of `SvmModel::load` (src/model.rs lines 42-52).  The
argument is the foreign `svm_load_model` result, `none` standing for a
NULL return.  The source forms `&mut (*ffi::svm_load_model(...))` with no
null test — creating the reference executes no runtime check — so the
handle simply stores whatever pointer the foreign call produced and the
other fields are `None`. -/
def SvmModel.load (foreign_result : Option CSvmModel) : SvmModel :=
  { crep := foreign_result, param := none, prob := none }

/-- Buffer length allocated by `SvmModel::predict_values` when the caller
passes no buffer (src/model.rs lines 148-161): `nr_class` is read from
the foreign model (`svm_get_nr_class` mirrors the `nr_class` field) and
the length is `(nr_class*(nr_class-1)/2) as usize`, with Rust's
truncating `i32` division. -/
def predict_values_buflen (m : CSvmModel) : Nat :=
  ((m.nr_class * (m.nr_class - 1)).tdiv 2).toNat

set_option linter.unusedVariables false in
/-- Buffer length allocated by `SvmModel::predict_probability` when the
caller passes no buffer (src/model.rs lines 185-195): the source sizes it
as `test_vec.len()` — the length of the test vector — reading nothing
from the model (the unused model argument records exactly that). -/
def predict_probability_buflen (m : CSvmModel) (test_vec : DataVec) : Nat :=
  test_vec.v.length

/-- Equivalence of SVM-type configurations in the sense of claim C2:
identical active variant and variant fields, with the `CSvc`
weight-override lists compared as unordered collections. -/
def svmTypeEquiv : SvmTypeParam → SvmTypeParam → Prop
  | .CSvc c1 w1, .CSvc c2 w2 => c1 = c2 ∧ List.Perm w1 w2
  | a, b => a = b

instance (a b : SvmTypeParam) : Decidable (svmTypeEquiv a b) := by
  cases a <;> cases b <;> unfold svmTypeEquiv <;> infer_instance

/-- Equivalence of parameter sets in the sense of claim C2: same active
kernel variant with its fields, equivalent SVM-type configuration, and
identical scalar knobs. -/
def paramEquiv (a b : SvmParameter) : Prop :=
  a.kernel_param = b.kernel_param ∧
  svmTypeEquiv a.svm_type_param b.svm_type_param ∧
  a.shrinking = b.shrinking ∧ a.probability = b.probability ∧
  a.cache_size = b.cache_size ∧ a.epsilon = b.epsilon

instance (a b : SvmParameter) : Decidable (paramEquiv a b) := by
  unfold paramEquiv; infer_instance

theorem zip_label_weight (ws : List Weight) :
    ((ws.map (fun w => w.label)).zip (ws.map (fun w => w.weight))).map
      (fun lw => (⟨lw.1, lw.2⟩ : Weight)) = ws := by
  induction ws with
  | nil => rfl
  | cons a as ih => simp [ih]

theorem make_weights_roundtrip (ws : List Weight) :
    make_weights (ws.length : Int) (some (ws.map (fun w => w.label)))
      (some (ws.map (fun w => w.weight))) = ws := by
  unfold make_weights
  dsimp only
  split_ifs with h
  · have h0 : ws.length = 0 := by exact_mod_cast h
    rw [List.length_eq_zero.mp h0]
  · rw [Int.toNat_natCast]
    rw [List.take_of_length_le (by simp), List.take_of_length_le (by simp)]
    exact zip_label_weight ws

/-- Claim C1: once a parameter set is frozen by being consumed into a
trained model via `model_from_c_rep`, mutating its SVM-type configuration
and re-translating with `crep` leaves the previously cached weight arrays
unchanged: `crep` skips the cache invalidation because `in_model` is set,
`cache_weights` returns early because a cache is present, and the
parameter state `crep` hands back is exactly the mutated input with the
old `weight_labels` and `weights` still cached. -/
theorem claim_C1 (cm : CSvmModel) (pr : SvmProblem) (p : SvmParameter)
    (stp : SvmTypeParam) (L : List Int) (W : List ℚ)
    (hL : p.weight_labels = some L) (hW : p.weights = some W)
    (q : SvmParameter) (hq : (model_from_c_rep cm pr p).param = some q) :
    ∃ c, SvmParameter.crep { q with svm_type_param := stp } =
        some (c, { q with svm_type_param := stp }) ∧
      ({ q with svm_type_param := stp } : SvmParameter).weight_labels = some L ∧
      ({ q with svm_type_param := stp } : SvmParameter).weights = some W := by
  have hq2 : q = set_in_model p true := by
    unfold model_from_c_rep at hq
    injection hq with hq
    exact hq.symm
  subst hq2
  obtain ⟨kp, st0, sh, pb, cs, ep, wl, w, im⟩ := p
  dsimp only at hL hW
  subst hL
  subst hW
  cases stp <;> exact ⟨_, rfl, rfl, rfl⟩

def c1wBase : SvmParameter :=
  ⟨.Linear, .CSvc 1 [⟨5, 2⟩], false, false, 0, 0, some [5], some [2], false⟩

/-- Claim C1 witness: the theorem at a concrete frozen parameter set with
a cached weight array, whose weight list is then replaced. -/
theorem claim_C1_witness :
    ∃ c, SvmParameter.crep
        { set_in_model c1wBase true with svm_type_param := .CSvc 1 [⟨7, 3⟩] } =
        some (c, { set_in_model c1wBase true with
          svm_type_param := .CSvc 1 [⟨7, 3⟩] }) ∧
      ({ set_in_model c1wBase true with
          svm_type_param := .CSvc 1 [⟨7, 3⟩] } : SvmParameter).weight_labels =
        some [5] ∧
      ({ set_in_model c1wBase true with
          svm_type_param := .CSvc 1 [⟨7, 3⟩] } : SvmParameter).weights =
        some [2] :=
  claim_C1 ⟨CSvmParameter.default, 2, 0, false⟩ ⟨()⟩ c1wBase
    (.CSvc 1 [⟨7, 3⟩]) [5] [2] rfl rfl (set_in_model c1wBase true) rfl

/-- Claim C7: translating a parameter set with `crep` never changes the
semantic configuration fields (`kernel_param`, `svm_type_param`,
`shrinking`, `probability`, `cache_size`, `epsilon`); only the cache
cells `weight_labels` and `weights` may differ in the state it returns. -/
theorem claim_C7 (p : SvmParameter) (c : CSvmParameter) (q : SvmParameter)
    (h : p.crep = some (c, q)) :
    q.kernel_param = p.kernel_param ∧ q.svm_type_param = p.svm_type_param ∧
    q.shrinking = p.shrinking ∧ q.probability = p.probability ∧
    q.cache_size = p.cache_size ∧ q.epsilon = p.epsilon := by
  obtain ⟨kp, st0, sh, pb, cs, ep, wl, w, im⟩ := p
  cases im <;> cases st0 <;> cases wl <;> cases w <;>
      simp only [SvmParameter.crep, SvmParameter.invalidate_cache,
        SvmParameter.cache_weights, Option.isSome_none, Option.isSome_some,
        Option.some.injEq, Prod.mk.injEq, Bool.false_eq_true, if_false,
        if_true, reduceCtorEq] at h <;>
    obtain ⟨h1, h2⟩ := h <;> subst h2 <;>
    exact ⟨rfl, rfl, rfl, rfl, rfl, rfl⟩

def c7p : SvmParameter := SvmParameter.new .Linear (.NuSvc 1) false false 0 0

def c7c : CSvmParameter :=
  { CSvmParameter.default with svm_type := .NuSvc, nu := 1 }

def c7q : SvmParameter := SvmParameter.invalidate_cache c7p

/-- Claim C7 witness: the theorem at a concrete freshly built parameter
set. -/
theorem claim_C7_witness :
    c7q.kernel_param = c7p.kernel_param ∧
    c7q.svm_type_param = c7p.svm_type_param ∧
    c7q.shrinking = c7p.shrinking ∧ c7q.probability = c7p.probability ∧
    c7q.cache_size = c7p.cache_size ∧ c7q.epsilon = c7p.epsilon :=
  claim_C7 c7p c7c c7q rfl

/-- Claim C2 (amended): for every parameter set that has not been frozen
(`in_model = false`), translating with `crep` succeeds and translating
the result back with `from_crep` reproduces the active kernel variant
with its fields, an equivalent SVM-type configuration (same variant and
fields, weight-override list recovered up to order), and the same scalar
knobs; a null or zero-length foreign weight array is recovered as the
empty list.  (The original claim's unrestricted "for every Parameter
Set" fails on frozen sets whose cache predates a mutation — exactly the
state claim C1 mandates.) -/
theorem claim_C2_amended :
    (∀ p : SvmParameter, p.in_model = false →
      ∃ c q, p.crep = some (c, q) ∧
        paramEquiv (SvmParameter.from_crep c) p) ∧
    (∀ (n : Int) (wl : List Int) (w : List ℚ),
      make_weights n none (some w) = [] ∧
      make_weights n (some wl) none = [] ∧
      make_weights 0 (some wl) (some w) = []) := by
  constructor
  · intro p hp
    obtain ⟨kp, st0, sh, pb, cs, ep, wl, w, im⟩ := p
    dsimp only at hp
    subst hp
    cases st0 <;> cases kp <;>
      refine ⟨_, _, rfl, ?_⟩ <;>
      simp [paramEquiv, svmTypeEquiv, SvmParameter.from_crep,
        SvmParameter.crep, SvmParameter.invalidate_cache,
        SvmParameter.cache_weights, KernelParam.to_kernel_type,
        SvmTypeParam.to_svm_type, make_weights_roundtrip,
        CSvmParameter.default]
  · intro n wl w
    exact ⟨rfl, rfl, rfl⟩

def c2cexBase : SvmParameter :=
  ⟨.Linear, .CSvc 1 [⟨5, 2⟩], false, false, 0, 0, some [5], some [2], false⟩

/-- The frozen-and-mutated parameter set of the C2 counterexample: the
set is consumed into a model (freezing it with a cache flattened from
the weight list `[(5,2)]`) and its weight list is then replaced by
`[(7,3)]`, as contemplated by claim C1. -/
def c2cexParam : SvmParameter :=
  { set_in_model c2cexBase true with svm_type_param := .CSvc 1 [⟨7, 3⟩] }

/-- The C struct `crep` produces for `c2cexParam`: the stale cached
arrays with the new count. -/
def c2cexCrep : CSvmParameter :=
  { CSvmParameter.default with
      svm_type := .CSvc, c := 1, nr_weight := 1,
      weight := some [2], weight_label := some [5] }

/-- Claim C2 counterexample: for the frozen parameter set whose
SVM-type configuration was mutated after its cache was flattened,
`crep` emits the stale cached arrays, so `from_crep` recovers the weight
pair `(5,2)` instead of the current `(7,3)` and the round trip is not
order-independent-equivalent — refuting the claim's unrestricted "for
every Parameter Set". -/
theorem claim_C2_counterexample :
    c2cexParam.crep = some (c2cexCrep, c2cexParam) ∧
    ¬ paramEquiv (SvmParameter.from_crep c2cexCrep) c2cexParam := by
  exact ⟨rfl, by decide⟩

def c2wParam : SvmParameter :=
  SvmParameter.new (.Poly 3 (1 / 2) 2) (.CSvc 1 [⟨1, 2⟩, ⟨-1, 3⟩])
    true false 100 (1 / 1000)

/-- Claim C2 witness: the amended round-trip theorem at a concrete
unfrozen parameter set with a Poly kernel and a two-entry weight list. -/
theorem claim_C2_witness :
    ∃ c q, c2wParam.crep = some (c, q) ∧
      paramEquiv (SvmParameter.from_crep c) c2wParam :=
  claim_C2_amended.1 c2wParam rfl

/-- Claim C8 (code-bug evidence): `SvmModel::load` performs no null
check on the foreign `svm_load_model` result — it merely wraps the
returned pointer — so when the foreign call returns NULL (`none`), a
handle carrying the null pointer is produced instead of any immediate
fatal fault. -/
theorem claim_C8_load_null :
    SvmModel.load none =
      { crep := none, param := none, prob := none } := rfl

/-- Claim C9 (code-bug evidence): on a model with three classes and the
dense test vector `[5]` (one entry plus sentinel), the decision-value
buffer is allocated with `nr_class*(nr_class-1)/2 = 3` entries as the
claim states, but the probability buffer is allocated with
`test_vec.len() = 2` entries — the test-vector length, not the class
count `3` the claim requires. -/
theorem claim_C9_buflen :
    predict_values_buflen ⟨CSvmParameter.default, 3, 0, false⟩ = 3 ∧
    predict_probability_buflen ⟨CSvmParameter.default, 3, 0, false⟩
      (from_dense [5]) = 2 ∧
    (⟨CSvmParameter.default, 3, 0, false⟩ : CSvmModel).nr_class = 3 ∧
    predict_probability_buflen ⟨CSvmParameter.default, 3, 0, false⟩
        (from_dense [5]) ≠
      (⟨CSvmParameter.default, 3, 0, false⟩ : CSvmModel).nr_class.toNat :=
  ⟨rfl, rfl, rfl, by decide⟩
